import Mathlib

/-
Verification of the semantic "find related" / linking subsystem of the Memex
application: the Convex backend functions in convex/canvas.ts,
convex/messages.ts and convex/embeddings.ts, together with the
link-materialization handler in src/components/canvas/MemexCanvas.tsx and the
backlinks panel in src/components/notes (BacklinksPanel).

The database is modelled as association lists keyed by numeric ids.  Numeric
document fields (v.number / v.float64) and similarity scores are modelled as
rationals.  The embedding provider and the vector index are external
collaborators and enter as explicit parameters: a provider response value, and
a function from (query vector, top-k) to a list of (id, score) hits.
-/

namespace Memex

/-- Similarity scores (floats in the source) are modelled as rationals. -/
abbrev Score := Rat

/-- Embedding vectors (arrays of float64 in the source) are opaque payloads
modelled as lists of rationals. -/
abbrev Vec := List Rat

/-- A row of the conversations table: the fields the verified functions touch
(the owner id from the identity provider, and the updatedAt timestamp patched
by messages.send). -/
structure ConversationDoc where
  userId : String
  updatedAt : Nat
deriving DecidableEq, Repr

/-- A row of the messages table, as inserted by messages.send and patched by
the embedding mutations. -/
structure MessageDoc where
  conversationId : Nat
  role : String
  content : String
  createdAt : Nat
  embedding : Option Vec := none
deriving DecidableEq, Repr

/-- A row of the canvasNodes table, with the fields of canvas.createNode. -/
structure CanvasNodeDoc where
  type : String
  content : String
  x : Rat
  y : Rat
  width : Rat
  height : Rat
  messageId : Option Nat := none
  conversationId : Option Nat := none
  sourceType : String := "manual"
  sourceId : Option Nat := none
  parentNodeId : Option Nat := none
  outgoingLinks : Option (List String) := none
  createdAt : Nat
  updatedAt : Nat
  embedding : Option Vec := none
deriving DecidableEq, Repr

/-- A row of the canvasEdges table, as inserted by canvas.createEdge. -/
structure EdgeDoc where
  source : Nat
  target : Nat
  label : Option String := none
  createdAt : Nat
deriving DecidableEq, Repr

/-- The database state: one association list per table, plus a counter
supplying fresh document ids for inserts. -/
structure Db where
  conversations : List (Nat × ConversationDoc) := []
  messages : List (Nat × MessageDoc) := []
  canvasNodes : List (Nat × CanvasNodeDoc) := []
  canvasEdges : List (Nat × EdgeDoc) := []
  nextId : Nat := 0
deriving DecidableEq, Repr

/-- Lookup of a document by id (ctx.db.get). -/
def assocGet (k : Nat) : List (Nat × α) → Option α
  | [] => none
  | e :: rest => if e.1 = k then some e.2 else assocGet k rest

/-- Patch of the document with a given id (ctx.db.patch): the entry with that
key is updated in place, every other entry is untouched. -/
def assocPatch (k : Nat) (f : α → α) (l : List (Nat × α)) : List (Nat × α) :=
  l.map (fun e => if e.1 = k then (e.1, f e.2) else e)

/-- Deletion of the document with a given id (ctx.db.delete). -/
def assocErase (k : Nat) (l : List (Nat × α)) : List (Nat × α) :=
  l.filter (fun e => e.1 != k)

/- ---------------------------------------------------------------------- -/
/- convex/canvas.ts                                                        -/
/- ---------------------------------------------------------------------- -/

/-- canvas.getNodeById: a raw ctx.db.get of the requested canvas node.  The
handler consults no identity and performs no ownership check. -/
def getNodeById (db : Db) (id : Nat) : Option CanvasNodeDoc :=
  assocGet id db.canvasNodes

/-- The optional argument fields of canvas.updateNode (undefined is none). -/
structure UpdateNodeArgs where
  content : Option String := none
  x : Option Rat := none
  y : Option Rat := none
  width : Option Rat := none
  height : Option Rat := none
deriving DecidableEq, Repr

/-- canvas.updateNode: drops the undefined argument fields and patches the
remaining ones together with updatedAt := now onto the stored node. -/
def updateNode (db : Db) (id : Nat) (args : UpdateNodeArgs) (now : Nat) : Db :=
  { db with canvasNodes := assocPatch id (fun n =>
      { n with
        content := args.content.getD n.content
        x := args.x.getD n.x
        y := args.y.getD n.y
        width := args.width.getD n.width
        height := args.height.getD n.height
        updatedAt := now }) db.canvasNodes }

/-- canvas.updateNodeEmbedding (and the identical internal mutation
embeddings.updateNodeEmbedding): patches only the embedding field. -/
def updateNodeEmbedding (db : Db) (id : Nat) (emb : Vec) : Db :=
  { db with canvasNodes :=
      assocPatch id (fun n => { n with embedding := some emb }) db.canvasNodes }

/-- A single ctx.db.delete of the row with the given id: it throws when no
such row exists (deleting an already-deleted document is an error in the
platform), otherwise it removes the row. -/
def dbDelete (k : Nat) (l : List (Nat × α)) : Except String (List (Nat × α)) :=
  match assocGet k l with
  | some _ => Except.ok (assocErase k l)
  | none => Except.error "Delete on nonexistent document"

/-- The sequential awaited ctx.db.delete calls of the deleteNode for-loop:
walk the collected rows in order and delete each row by its id, stopping at
the first failure. -/
def deleteRows : List (Nat × β) → List (Nat × α) → Except String (List (Nat × α))
  | [], l => Except.ok l
  | r :: rs, l =>
    match dbDelete r.1 l with
    | Except.error e => Except.error e
    | Except.ok l2 => deleteRows rs l2

/-- canvas.deleteNode: collects the edges indexed by source = id and by
target = id, deletes every row of the concatenated list in order, then
deletes the node itself.  A self-loop edge on the node appears in both
collections and is therefore deleted twice; the second delete throws, and
since a mutation is atomic the throw rolls the whole mutation back — the
error outcome carries no new state. -/
def deleteNode (db : Db) (id : Nat) : Except String Db :=
  let sourceEdges := db.canvasEdges.filter (fun e => e.2.source == id)
  let targetEdges := db.canvasEdges.filter (fun e => e.2.target == id)
  match deleteRows (sourceEdges ++ targetEdges) db.canvasEdges with
  | Except.error e => Except.error e
  | Except.ok es2 =>
    match dbDelete id db.canvasNodes with
    | Except.error e => Except.error e
    | Except.ok ns2 =>
      Except.ok { db with canvasEdges := es2, canvasNodes := ns2 }

/-- canvas.createEdge: a blind ctx.db.insert of a new edge row; no lookup of
an existing (source, target) pair precedes it.  Returns the new state and the
id of the inserted row. -/
def createEdge (db : Db) (source target : Nat) (label : Option String)
    (now : Nat) : Db × Nat :=
  let id := db.nextId
  ({ db with
      canvasEdges := db.canvasEdges ++
        [(id, { source := source, target := target, label := label, createdAt := now })]
      nextId := id + 1 }, id)

/-- canvas.deleteEdge: deletes one edge row by id (throws when absent). -/
def deleteEdge (db : Db) (id : Nat) : Except String Db :=
  match dbDelete id db.canvasEdges with
  | Except.error e => Except.error e
  | Except.ok es => Except.ok { db with canvasEdges := es }

/-- One entry of the canvas.getBacklinks result: the source node spread
together with the label of the incoming edge. -/
structure BacklinkEntry where
  id : Nat
  node : CanvasNodeDoc
  edgeLabel : Option String
deriving DecidableEq, Repr

/-- canvas.getBacklinks: the edges whose target is the node, each resolved to
its source node with the edge label attached; unresolved (null) entries are
filtered out.  As with getNodeById, no ownership filter appears in the
handler. -/
def getBacklinks (db : Db) (nodeId : Nat) : List (Option BacklinkEntry) :=
  let incomingEdges := db.canvasEdges.filter (fun e => e.2.target == nodeId)
  (incomingEdges.map (fun e =>
    (getNodeById db e.2.source).map (fun n =>
      { id := e.2.source, node := n, edgeLabel := e.2.label }))).filter
    (fun o => o.isSome)

/- ---------------------------------------------------------------------- -/
/- convex/messages.ts                                                      -/
/- ---------------------------------------------------------------------- -/

/-- messages.getById: the auth-checked read.  The stored message is returned
only when its conversation exists and belongs to the requesting identity;
both "does not exist" and "not yours" collapse to none. -/
def messagesGetById (db : Db) (ident : String) (id : Nat) : Option MessageDoc :=
  match assocGet id db.messages with
  | none => none
  | some message =>
    match assocGet message.conversationId db.conversations with
    | none => none
    | some conversation =>
      if conversation.userId = ident then some message else none

/-- messages.updateEmbedding: the owner-checked embedding overwrite for
messages; fails with "Not found" when the message is absent or the
conversation is absent or foreign, and otherwise patches only the embedding
field. -/
def messagesUpdateEmbedding (db : Db) (ident : String) (id : Nat) (emb : Vec) :
    Except String Db :=
  match assocGet id db.messages with
  | none => Except.error "Not found"
  | some message =>
    match assocGet message.conversationId db.conversations with
    | none => Except.error "Not found"
    | some conversation =>
      if conversation.userId = ident then
        Except.ok { db with
          messages :=
            assocPatch id (fun m => { m with embedding := some emb }) db.messages }
      else Except.error "Not found"

/- ---------------------------------------------------------------------- -/
/- convex/embeddings.ts                                                    -/
/- ---------------------------------------------------------------------- -/

/-- The embedding provider response as findRelated consumes it: the ok flag
of the HTTP response, the optional error message of the response body, and
the returned vector. -/
structure ProviderResponse where
  ok : Bool
  errorMessage : Option String
  embedding : Vec
deriving DecidableEq, Repr

/-- An element of the messages array of the findRelated result (the
RelatedMessage interface): the resolved message together with the raw
similarity score of its hit. -/
structure RelatedMessage where
  id : Nat
  content : String
  role : String
  conversationId : Nat
  createdAt : Nat
  score : Score
deriving DecidableEq, Repr

/-- An element of the nodes array of the findRelated result (the RelatedNode
interface). -/
structure RelatedNode where
  id : Nat
  content : String
  score : Score
  x : Rat
  y : Rat
  createdAt : Nat
deriving DecidableEq, Repr

/-- The FindRelatedResult interface.  The element types stay optional as in
the source (the runtime filter removes the nulls but the declared type keeps
them). -/
structure FindRelatedResult where
  messages : List (Option RelatedMessage)
  nodes : List (Option RelatedNode)
deriving DecidableEq, Repr

/-- The vector index of one collection (ctx.vectorSearch): maps a query
vector and a top-k bound to the list of (id, score) hits. -/
abbrev VectorIndex := Vec → Nat → List (Nat × Score)

/-- The per-hit resolution of a message hit inside findRelated: the
auth-checked messages.getById lookup, spread with the score of the hit. -/
def resolveMessageHit (db : Db) (ident : String) (hit : Nat × Score) :
    Option RelatedMessage :=
  (messagesGetById db ident hit.1).map (fun msg =>
    { id := hit.1, content := msg.content, role := msg.role,
      conversationId := msg.conversationId, createdAt := msg.createdAt,
      score := hit.2 })

/-- The per-hit resolution of a canvas-node hit inside findRelated: the
canvas.getNodeById lookup (which checks nothing), spread with the score. -/
def resolveNodeHit (db : Db) (hit : Nat × Score) : Option RelatedNode :=
  (getNodeById db hit.1).map (fun node =>
    { id := hit.1, content := node.content, score := hit.2,
      x := node.x, y := node.y, createdAt := node.createdAt })

/-- embeddings.findRelated: embeds the query once through the provider
(throwing the provider error message, or the fixed fallback, when the
response is not ok), queries each collection's vector index with
top-k = limit ?? 5, resolves every hit per collection in hit order, and
returns the two arrays with the null resolutions filtered out.  The handler
is an action that never writes: the state is returned unchanged. -/
def findRelated (db : Db) (ident : String) (resp : ProviderResponse)
    (messageIndex nodeIndex : VectorIndex) (limit : Option Nat) :
    Except String (FindRelatedResult × Db) :=
  if !resp.ok then
    Except.error (resp.errorMessage.getD "Failed to generate embedding")
  else
    let embedding := resp.embedding
    let messageResults := messageIndex embedding (limit.getD 5)
    let nodeResults := nodeIndex embedding (limit.getD 5)
    let messages := (messageResults.map (resolveMessageHit db ident)).filter
      (fun o => o.isSome)
    let nodes := (nodeResults.map (resolveNodeHit db)).filter (fun o => o.isSome)
    Except.ok ({ messages := messages, nodes := nodes }, db)

/- ---------------------------------------------------------------------- -/
/- src/components/canvas/MemexCanvas.tsx                                   -/
/- ---------------------------------------------------------------------- -/

/-- The similarity label written on materialized edges:
Math.round(score * 100) followed by a percent sign. -/
def scoreLabel (score : Score) : String :=
  toString (round (score * 100)) ++ "%"

/-- The for-loop body of MemexCanvas.handleFindRelated: walk the related
nodes in order; for a non-null node whose id differs from the originating
node, create an edge from the originating node to it, labelled with the
rounded percentage score; otherwise skip. -/
def materializeLoop (nodeId : Nat) (now : Nat) : Db → List (Option RelatedNode) → Db
  | db, [] => db
  | db, none :: rest => materializeLoop nodeId now db rest
  | db, some n :: rest =>
    if n.id ≠ nodeId then
      materializeLoop nodeId now
        (createEdge db nodeId n.id (some (scoreLabel n.score)) now).1 rest
    else materializeLoop nodeId now db rest

/-- MemexCanvas.handleFindRelated: materializes the related nodes of a
findRelated result as edges out of the originating node; related nodes equal
to the source by id are skipped. -/
def handleFindRelated (db : Db) (nodeId : Nat) (related : FindRelatedResult)
    (now : Nat) : Db :=
  materializeLoop nodeId now db related.nodes

/- ---------------------------------------------------------------------- -/
/- canvas.getWikiLinkBacklinks (implementation not among the sources)      -/
/- ---------------------------------------------------------------------- -/

/-- Modelled from the spec: the canvas.getWikiLinkBacklinks query is invoked
by BacklinksPanel but its implementation is not among the sources here.  Per
the spec it scans all notes (a note's delimiter-marked outgoing wiki
references are recorded in its outgoingLinks field) for a reference matching
the title case-insensitively, and excludes the note whose own title equals
the title (self-reference guard); titleOf abstracts the extraction of a
note's title from its content heading. -/
def getWikiLinkBacklinks (titleOf : CanvasNodeDoc → String) (db : Db)
    (title : String) : List (Nat × CanvasNodeDoc) :=
  db.canvasNodes.filter (fun e =>
    e.2.type == "note" &&
    (e.2.outgoingLinks.getD []).any (fun l => l.toLower == title.toLower) &&
    titleOf e.2 != title)

/-- BacklinksPanel: the panel-side filtering of the wiki-link backlinks; the
comment in the source reads "Filter out the current note from backlinks" and
the filter compares by document id against the currently open note. -/
def backlinksPanelFiltered (titleOf : CanvasNodeDoc → String) (db : Db)
    (noteTitle : String) (currentNoteId : Nat) : List (Nat × CanvasNodeDoc) :=
  (getWikiLinkBacklinks titleOf db noteTitle).filter
    (fun note => note.1 != currentNoteId)

/- ---------------------------------------------------------------------- -/
/- Helper lemmas about the association-list database primitives            -/
/- ---------------------------------------------------------------------- -/

lemma assocGet_cons (k : Nat) (e : Nat × α) (l : List (Nat × α)) :
    assocGet k (e :: l) = if e.1 = k then some e.2 else assocGet k l := rfl

lemma assocPatch_cons (k : Nat) (f : α → α) (e : Nat × α) (l : List (Nat × α)) :
    assocPatch k f (e :: l) =
      (if e.1 = k then (e.1, f e.2) else e) :: assocPatch k f l := rfl

lemma assocErase_cons (k : Nat) (e : Nat × α) (l : List (Nat × α)) :
    assocErase k (e :: l) =
      if e.1 = k then assocErase k l else e :: assocErase k l := by
  by_cases h : e.1 = k <;> simp [assocErase, List.filter_cons, h]

lemma assocGet_assocPatch_self (k : Nat) (f : α → α) (l : List (Nat × α)) :
    assocGet k (assocPatch k f l) = (assocGet k l).map f := by
  induction l with
  | nil => rfl
  | cons e rest ih =>
    by_cases h1 : e.1 = k
    · rw [assocPatch_cons, if_pos h1]
      simp [assocGet_cons, h1]
    · rw [assocPatch_cons, if_neg h1, assocGet_cons, assocGet_cons,
        if_neg h1, if_neg h1]
      exact ih

lemma assocGet_assocPatch_ne (k2 k : Nat) (h : k2 ≠ k) (f : α → α)
    (l : List (Nat × α)) :
    assocGet k2 (assocPatch k f l) = assocGet k2 l := by
  induction l with
  | nil => rfl
  | cons e rest ih =>
    by_cases h1 : e.1 = k
    · have h2 : ¬ e.1 = k2 := by rw [h1]; exact fun hk => h hk.symm
      rw [assocPatch_cons, if_pos h1, assocGet_cons, assocGet_cons,
        if_neg h2, if_neg h2]
      exact ih
    · rw [assocPatch_cons, if_neg h1, assocGet_cons, assocGet_cons]
      by_cases h2 : e.1 = k2
      · rw [if_pos h2, if_pos h2]
      · rw [if_neg h2, if_neg h2]; exact ih

lemma mem_assocErase (e : Nat × α) (k : Nat) (l : List (Nat × α)) :
    e ∈ assocErase k l ↔ e ∈ l ∧ e.1 ≠ k := by
  simp [assocErase, List.mem_filter]

lemma assocGet_assocErase_ne (k2 k : Nat) (h : k2 ≠ k) (l : List (Nat × α)) :
    assocGet k2 (assocErase k l) = assocGet k2 l := by
  induction l with
  | nil => rfl
  | cons e rest ih =>
    by_cases h1 : e.1 = k
    · have h2 : ¬ e.1 = k2 := by rw [h1]; exact fun hk => h hk.symm
      rw [assocErase_cons, if_pos h1, assocGet_cons, if_neg h2]
      exact ih
    · rw [assocErase_cons, if_neg h1, assocGet_cons, assocGet_cons]
      by_cases h2 : e.1 = k2
      · rw [if_pos h2, if_pos h2]
      · rw [if_neg h2, if_neg h2]; exact ih

lemma assocGet_assocErase_self (k : Nat) (l : List (Nat × α)) :
    assocGet k (assocErase k l) = none := by
  induction l with
  | nil => rfl
  | cons e rest ih =>
    by_cases h1 : e.1 = k
    · rw [assocErase_cons, if_pos h1]; exact ih
    · rw [assocErase_cons, if_neg h1, assocGet_cons, if_neg h1]; exact ih

lemma mem_foldl_assocErase (ids : List Nat) :
    ∀ (es : List (Nat × α)) (e : Nat × α),
      (e ∈ ids.foldl (fun es2 i => assocErase i es2) es ↔ e ∈ es ∧ e.1 ∉ ids) := by
  induction ids with
  | nil => simp
  | cons i ids ih =>
    intro es e
    rw [List.foldl_cons, ih, mem_assocErase]
    constructor
    · rintro ⟨⟨he, hne⟩, hnotin⟩
      exact ⟨he, by simp [hne, hnotin]⟩
    · rintro ⟨he, hnotin⟩
      simp only [List.mem_cons, not_or] at hnotin
      exact ⟨⟨he, hnotin.1⟩, hnotin.2⟩

lemma eq_of_mem_of_fst_eq {l : List (Nat × α)}
    (hnd : (l.map Prod.fst).Nodup) {a b : Nat × α}
    (ha : a ∈ l) (hb : b ∈ l) (h : a.1 = b.1) : a = b := by
  induction l with
  | nil => cases ha
  | cons e rest ih =>
    simp only [List.map_cons, List.nodup_cons] at hnd
    rcases List.mem_cons.mp ha with rfl | ha2
    · rcases List.mem_cons.mp hb with rfl | hb2
      · rfl
      · exact absurd (h ▸ List.mem_map_of_mem Prod.fst hb2) hnd.1
    · rcases List.mem_cons.mp hb with rfl | hb2
      · exact absurd (h ▸ List.mem_map_of_mem Prod.fst ha2) hnd.1
      · exact ih hnd.2 ha2 hb2

lemma filter_isSome_filterMap_id (l : List (Option β)) :
    (l.filter (fun o => o.isSome)).filterMap id = l.filterMap id := by
  induction l with
  | nil => rfl
  | cons o rest ih => cases o <;> simp [List.filter, ih]

lemma filterMap_id_map_filter (f : α → Option β) (l : List α) :
    ((l.map f).filter (fun o => o.isSome)).filterMap id = l.filterMap f := by
  rw [filter_isSome_filterMap_id, List.filterMap_map]
  rfl

lemma resolveMessageHit_score (db : Db) (ident : String) (hit : Nat × Score)
    (m : RelatedMessage) (h : resolveMessageHit db ident hit = some m) :
    m.score = hit.2 := by
  unfold resolveMessageHit at h
  cases hg : messagesGetById db ident hit.1 with
  | none => rw [hg] at h; simp at h
  | some msg =>
    rw [hg] at h
    simp only [Option.map_some', Option.some.injEq] at h
    rw [← h]

lemma resolveNodeHit_score (db : Db) (hit : Nat × Score)
    (n : RelatedNode) (h : resolveNodeHit db hit = some n) :
    n.score = hit.2 := by
  unfold resolveNodeHit at h
  cases hg : getNodeById db hit.1 with
  | none => rw [hg] at h; simp at h
  | some node =>
    rw [hg] at h
    simp only [Option.map_some', Option.some.injEq] at h
    rw [← h]

lemma mem_materializeLoop_edges (nodeId now : Nat) :
    ∀ (nodes : List (Option RelatedNode)) (db : Db) (e : Nat × EdgeDoc),
      e ∈ (materializeLoop nodeId now db nodes).canvasEdges →
      e ∈ db.canvasEdges ∨ (e.2.source = nodeId ∧ e.2.target ≠ nodeId) := by
  intro nodes
  induction nodes with
  | nil => intro db e he; exact Or.inl he
  | cons node rest ih =>
    intro db e he
    cases node with
    | none =>
      simp only [materializeLoop] at he
      exact ih db e he
    | some n =>
      simp only [materializeLoop] at he
      by_cases h : n.id ≠ nodeId
      · rw [if_pos h] at he
        rcases ih _ e he with h2 | h2
        · simp only [createEdge, List.mem_append, List.mem_singleton] at h2
          rcases h2 with h3 | h3
          · exact Or.inl h3
          · right
            rw [h3]
            exact ⟨rfl, h⟩
        · exact Or.inr h2
      · rw [if_neg h] at he
        exact ih db e he

/-- C2: every edge present after handleFindRelated was either already present
or was created with the originating node as source and a different node as
target; in particular no created edge has the originating node as both
endpoints, and a related node equal to the source by id is skipped. -/
theorem handleFindRelated_self_exclusion (db : Db) (nodeId : Nat)
    (related : FindRelatedResult) (now : Nat) :
    ((handleFindRelated db nodeId related now).canvasEdges.all
      (fun e => decide (e ∈ db.canvasEdges) ||
        (e.2.source == nodeId && e.2.target != nodeId))) = true := by
  rw [List.all_eq_true]
  intro e he
  rcases mem_materializeLoop_edges nodeId now related.nodes db e he with h | h
  · simp [h]
  · simp [h.1, h.2]

/-- C6: no entry of the getWikiLinkBacklinks result is a note whose own title
equals the queried title (the self-reference guard excludes by title). -/
theorem getWikiLinkBacklinks_self_exclusion (titleOf : CanvasNodeDoc → String)
    (db : Db) (title : String) :
    ((getWikiLinkBacklinks titleOf db title).all
      (fun e => titleOf e.2 != title)) = true := by
  rw [List.all_eq_true]
  intro e he
  rw [getWikiLinkBacklinks] at he
  have h := (List.mem_filter.mp he).2
  simp only [Bool.and_eq_true] at h
  exact h.2

/-- C7: when the embedding provider response is not ok, findRelated fails
with exactly the provider's error message (or the fixed fallback), and a
successful findRelated returns the database state unchanged — the action
never writes, so a failed call leaves no corrupted committed state.  The
provider is consulted exactly once by construction (a single response value
enters the computation). -/
theorem findRelated_provider_error (db : Db) (ident : String)
    (resp : ProviderResponse) (mi ni : VectorIndex) (limit : Option Nat) :
    (resp.ok = false →
      findRelated db ident resp mi ni limit =
        Except.error (resp.errorMessage.getD "Failed to generate embedding")) ∧
    (∀ r db2, findRelated db ident resp mi ni limit = Except.ok (r, db2) →
      db2 = db) := by
  constructor
  · intro h
    simp [findRelated, h]
  · intro r db2 hok
    by_cases h : resp.ok = true
    · rw [findRelated] at hok
      rw [h] at hok
      simp only [Bool.not_true, Bool.false_eq_true, if_false, Except.ok.injEq,
        Prod.mk.injEq] at hok
      exact hok.2.symm
    · rw [findRelated] at hok
      rw [Bool.not_eq_true] at h
      rw [h] at hok
      simp at hok

/-- The empty database, used to instantiate theorems with hypotheses. -/
def emptyDb : Db := {}

/-- A vector index returning no hits, used to instantiate theorems. -/
def nilIndex : VectorIndex := fun _ _ => []

/-- A failed provider response with an error message, used to instantiate
theorems. -/
def badResp : ProviderResponse :=
  { ok := false, errorMessage := some "rate limited", embedding := [] }

/-- Witness for C7 at a concrete failed provider response. -/
theorem findRelated_provider_error_witness :
    badResp.ok = false ∧
    findRelated emptyDb "userA" badResp nilIndex nilIndex none =
      Except.error "rate limited" :=
  ⟨rfl, (findRelated_provider_error emptyDb "userA" badResp nilIndex nilIndex
    none).1 rfl⟩

/-- C9: edge creation enforces no uniqueness constraint — two successive
createEdge calls with the same source and target insert two rows with
distinct ids, both present in the edge table afterwards. -/
theorem createEdge_duplicates_allowed (db : Db) (A B : Nat)
    (l1 l2 : Option String) (t1 t2 : Nat) :
    (createEdge db A B l1 t1).2 ≠
      (createEdge (createEdge db A B l1 t1).1 A B l2 t2).2 ∧
    ((createEdge db A B l1 t1).2,
      ({ source := A, target := B, label := l1, createdAt := t1 } : EdgeDoc)) ∈
        (createEdge (createEdge db A B l1 t1).1 A B l2 t2).1.canvasEdges ∧
    ((createEdge (createEdge db A B l1 t1).1 A B l2 t2).2,
      ({ source := A, target := B, label := l2, createdAt := t2 } : EdgeDoc)) ∈
        (createEdge (createEdge db A B l1 t1).1 A B l2 t2).1.canvasEdges := by
  refine ⟨?_, ?_, ?_⟩
  · simp [createEdge]
  · simp [createEdge]
  · simp [createEdge]

/-- C10: updateNode patches exactly the supplied argument fields plus the
updatedAt timestamp onto the stored node — every omitted (none) field keeps
its stored value via getD, and the record-update form shows that type, the
provenance fields (messageId, conversationId, sourceType, sourceId,
parentNodeId, outgoingLinks), createdAt and the stored embedding are never
touched; every other node is left unchanged. -/
theorem updateNode_frame (db : Db) (id : Nat) (args : UpdateNodeArgs)
    (now : Nat) (n : CanvasNodeDoc) (h : getNodeById db id = some n) :
    (getNodeById (updateNode db id args now) id = some
      { n with
        content := args.content.getD n.content
        x := args.x.getD n.x
        y := args.y.getD n.y
        width := args.width.getD n.width
        height := args.height.getD n.height
        updatedAt := now }) ∧
    (∀ other, other ≠ id →
      getNodeById (updateNode db id args now) other = getNodeById db other) := by
  constructor
  · rw [getNodeById] at h
    simp only [updateNode, getNodeById]
    rw [assocGet_assocPatch_self, h]
    rfl
  · intro other hne
    simp only [updateNode, getNodeById]
    rw [assocGet_assocPatch_ne other id hne]

/-- A concrete canvas node used to instantiate theorems. -/
def exNode : CanvasNodeDoc :=
  { type := "note", content := "old content", x := 1, y := 2, width := 300,
    height := 150, sourceType := "voice", sourceId := some 9,
    outgoingLinks := some ["Project Alpha"], createdAt := 5, updatedAt := 5,
    embedding := some [1, 0] }

/-- A database holding only the concrete node, under id 7. -/
def exDbNode : Db := { canvasNodes := [(7, exNode)] }

/-- A content-only update, leaving position and size omitted. -/
def exContentOnly : UpdateNodeArgs := { content := some "new content" }

/-- Witness for C10: a content-only update of the concrete node. -/
theorem updateNode_frame_witness :
    getNodeById exDbNode 7 = some exNode ∧
    ((getNodeById (updateNode exDbNode 7 exContentOnly 42) 7 = some
      { exNode with
        content := exContentOnly.content.getD exNode.content
        x := exContentOnly.x.getD exNode.x
        y := exContentOnly.y.getD exNode.y
        width := exContentOnly.width.getD exNode.width
        height := exContentOnly.height.getD exNode.height
        updatedAt := 42 }) ∧
    (∀ other, other ≠ 7 →
      getNodeById (updateNode exDbNode 7 exContentOnly 42) other =
        getNodeById exDbNode other)) :=
  ⟨rfl, updateNode_frame exDbNode 7 exContentOnly 42 exNode rfl⟩

lemma messagesGetById_inversion (db : Db) (ident : String) (id : Nat)
    (msg : MessageDoc) (h : messagesGetById db ident id = some msg) :
    assocGet id db.messages = some msg ∧
    ∃ conv, assocGet msg.conversationId db.conversations = some conv ∧
      conv.userId = ident := by
  unfold messagesGetById at h
  split at h
  · exact absurd h (by simp)
  next m h1 =>
    split at h
    · exact absurd h (by simp)
    next conv h2 =>
      split at h
      next h3 =>
        have hme : m = msg := by injection h
        subst hme
        exact ⟨h1, conv, h2, h3⟩
      next h3 => exact absurd h (by simp)

/-- C4: overwriting an embedding twice leaves exactly the second vector as
the one current embedding of the entity — for canvas nodes through
updateNodeEmbedding and for messages through the owner-checked
updateEmbedding mutation; patch replaces the embedding field in place, so no
prior vector survives. -/
theorem setEmbedding_last_write_wins (db : Db) (nid mid : Nat) (v1 v2 : Vec)
    (ident : String) (n : CanvasNodeDoc) (msg : MessageDoc)
    (hn : getNodeById db nid = some n)
    (hm : messagesGetById db ident mid = some msg) :
    (getNodeById (updateNodeEmbedding (updateNodeEmbedding db nid v1) nid v2)
      nid = some { n with embedding := some v2 }) ∧
    (∃ db1 db2,
      messagesUpdateEmbedding db ident mid v1 = Except.ok db1 ∧
      messagesUpdateEmbedding db1 ident mid v2 = Except.ok db2 ∧
      messagesGetById db2 ident mid = some { msg with embedding := some v2 }) := by
  obtain ⟨h1, conv, h2, h3⟩ := messagesGetById_inversion db ident mid msg hm
  constructor
  · rw [getNodeById] at hn
    simp only [updateNodeEmbedding, getNodeById]
    rw [assocGet_assocPatch_self, assocGet_assocPatch_self, hn]
    rfl
  · refine ⟨{ db with
        messages :=
          assocPatch mid (fun m => { m with embedding := some v1 })
            db.messages },
      { db with
        messages :=
          assocPatch mid (fun m => { m with embedding := some v2 })
            (assocPatch mid (fun m => { m with embedding := some v1 })
              db.messages) },
      ?_, ?_, ?_⟩
    · unfold messagesUpdateEmbedding
      simp only [h1, h2]
      rw [if_pos h3]
    · have g1 : assocGet mid
        (assocPatch mid (fun m => { m with embedding := some v1 }) db.messages) =
          some { msg with embedding := some v1 } := by
        rw [assocGet_assocPatch_self, h1]
        rfl
      unfold messagesUpdateEmbedding
      simp only [g1, h2]
      rw [if_pos h3]
    · have g2 : assocGet mid
        (assocPatch mid (fun m => { m with embedding := some v2 })
          (assocPatch mid (fun m => { m with embedding := some v1 })
            db.messages)) = some { msg with embedding := some v2 } := by
        rw [assocGet_assocPatch_self, assocGet_assocPatch_self, h1]
        rfl
      unfold messagesGetById
      simp only [g2, h2]
      rw [if_pos h3]

/-- A conversation owned by userA. -/
def exConvA : ConversationDoc := { userId := "userA", updatedAt := 0 }

/-- A message inside the userA conversation. -/
def exMsgA : MessageDoc :=
  { conversationId := 0, role := "user", content := "hello", createdAt := 1 }

/-- A database with userA's conversation, message and node. -/
def exDbA : Db :=
  { conversations := [(0, exConvA)], messages := [(1, exMsgA)],
    canvasNodes := [(7, exNode)], nextId := 8 }

/-- Witness for C4 at concrete entities and vectors. -/
theorem setEmbedding_last_write_wins_witness :
    (getNodeById exDbA 7 = some exNode ∧
      messagesGetById exDbA "userA" 1 = some exMsgA) ∧
    ((getNodeById (updateNodeEmbedding (updateNodeEmbedding exDbA 7 [1])
        7 [2]) 7 = some { exNode with embedding := some [2] }) ∧
    (∃ db1 db2,
      messagesUpdateEmbedding exDbA "userA" 1 [1] = Except.ok db1 ∧
      messagesUpdateEmbedding db1 "userA" 1 [2] = Except.ok db2 ∧
      messagesGetById db2 "userA" 1 =
        some { exMsgA with embedding := some [2] })) :=
  ⟨⟨rfl, rfl⟩,
    setEmbedding_last_write_wins exDbA 7 1 [1] [2] "userA" exNode exMsgA rfl rfl⟩

/-- The post-state of a successful deleteNode run: the collected edge rows
removed one by one and the node row removed. -/
def cascadeResult (db : Db) (X : Nat) : Db :=
  { db with
    canvasEdges :=
      ((db.canvasEdges.filter (fun e => e.2.source == X)) ++
        (db.canvasEdges.filter (fun e => e.2.target == X))).foldl
          (fun l2 r => assocErase r.1 l2) db.canvasEdges
    canvasNodes := assocErase X db.canvasNodes }

lemma dbDelete_ok {l : List (Nat × α)} {k : Nat}
    (h : (assocGet k l).isSome = true) :
    dbDelete k l = Except.ok (assocErase k l) := by
  rw [dbDelete]
  cases hg : assocGet k l with
  | none => rw [hg] at h; simp at h
  | some v => rfl

lemma assocGet_isSome_of_mem (e : Nat × α) (l : List (Nat × α)) (h : e ∈ l) :
    (assocGet e.1 l).isSome = true := by
  induction l with
  | nil => cases h
  | cons a rest ih =>
    rcases List.mem_cons.mp h with rfl | h2
    · simp [assocGet_cons]
    · by_cases ha : a.1 = e.1
      · simp [assocGet_cons, ha]
      · simp [assocGet_cons, ha, ih h2]

lemma deleteRows_ok (rows : List (Nat × β)) :
    ∀ l : List (Nat × α), (rows.map Prod.fst).Nodup →
      (∀ r ∈ rows, (assocGet r.1 l).isSome = true) →
      deleteRows rows l =
        Except.ok (rows.foldl (fun l2 r => assocErase r.1 l2) l) := by
  induction rows with
  | nil => intro l _ _; rfl
  | cons r rs ih =>
    intro l hnd hsome
    rw [List.map_cons, List.nodup_cons] at hnd
    have hi : (assocGet r.1 l).isSome = true := hsome r (List.mem_cons_self r rs)
    rw [deleteRows, dbDelete_ok hi, List.foldl_cons]
    exact ih (assocErase r.1 l) hnd.2 (fun j hj => by
      have hji : j.1 ≠ r.1 := fun hh =>
        hnd.1 (hh ▸ List.mem_map_of_mem Prod.fst hj)
      rw [assocGet_assocErase_ne j.1 r.1 hji]
      exact hsome j (List.mem_cons_of_mem r hj))

lemma cascadeResult_edges_char (db : Db) (X : Nat)
    (hk : (db.canvasEdges.map Prod.fst).Nodup) (e : Nat × EdgeDoc) :
    e ∈ (cascadeResult db X).canvasEdges ↔
      e ∈ db.canvasEdges ∧ e.2.source ≠ X ∧ e.2.target ≠ X := by
  have hfold : (cascadeResult db X).canvasEdges =
      (((db.canvasEdges.filter (fun e => e.2.source == X)) ++
        (db.canvasEdges.filter (fun e => e.2.target == X))).map
          Prod.fst).foldl (fun es2 i => assocErase i es2) db.canvasEdges := by
    rw [List.foldl_map]
    rfl
  rw [hfold, mem_foldl_assocErase]
  constructor
  · rintro ⟨he, hnotin⟩
    refine ⟨he, ?_, ?_⟩
    · intro hs
      exact hnotin (List.mem_map.mpr ⟨e, List.mem_append_left _
        (List.mem_filter.mpr ⟨he, by simp [hs]⟩), rfl⟩)
    · intro ht
      exact hnotin (List.mem_map.mpr ⟨e, List.mem_append_right _
        (List.mem_filter.mpr ⟨he, by simp [ht]⟩), rfl⟩)
  · rintro ⟨he, hs, ht⟩
    refine ⟨he, ?_⟩
    intro hin
    obtain ⟨e2, he2, hfst⟩ := List.mem_map.mp hin
    have he2db : e2 ∈ db.canvasEdges := by
      rcases List.mem_append.mp he2 with h | h
      · exact (List.mem_filter.mp h).1
      · exact (List.mem_filter.mp h).1
    have : e2 = e := eq_of_mem_of_fst_eq hk he2db he hfst
    subst this
    rcases List.mem_append.mp he2 with h | h
    · exact hs (by simpa using (List.mem_filter.mp h).2)
    · exact ht (by simpa using (List.mem_filter.mp h).2)

lemma deleteNode_ok (db : Db) (X : Nat)
    (hk : (db.canvasEdges.map Prod.fst).Nodup)
    (hx : (getNodeById db X).isSome = true)
    (hs : ∀ e ∈ db.canvasEdges, ¬(e.2.source = X ∧ e.2.target = X)) :
    deleteNode db X = Except.ok (cascadeResult db X) := by
  have hnd : (((db.canvasEdges.filter (fun e => e.2.source == X)) ++
      (db.canvasEdges.filter (fun e => e.2.target == X))).map
        Prod.fst).Nodup := by
    rw [List.map_append, List.nodup_append]
    refine ⟨List.Nodup.sublist (List.Sublist.map _ (List.filter_sublist _)) hk,
      List.Nodup.sublist (List.Sublist.map _ (List.filter_sublist _)) hk, ?_⟩
    intro a ha hb
    obtain ⟨e1, he1, hf1⟩ := List.mem_map.mp ha
    obtain ⟨e2, he2, hf2⟩ := List.mem_map.mp hb
    have he1e : e1 ∈ db.canvasEdges := (List.mem_filter.mp he1).1
    have he2e : e2 ∈ db.canvasEdges := (List.mem_filter.mp he2).1
    have heq : e1 = e2 := eq_of_mem_of_fst_eq hk he1e he2e (by rw [hf1, hf2])
    subst heq
    exact hs e1 he1e ⟨by simpa using (List.mem_filter.mp he1).2,
      by simpa using (List.mem_filter.mp he2).2⟩
  have hpre : ∀ r ∈ (db.canvasEdges.filter (fun e => e.2.source == X)) ++
      (db.canvasEdges.filter (fun e => e.2.target == X)),
      (assocGet r.1 db.canvasEdges).isSome = true := by
    intro r hr
    have hrdb : r ∈ db.canvasEdges := by
      rcases List.mem_append.mp hr with h | h
      · exact (List.mem_filter.mp h).1
      · exact (List.mem_filter.mp h).1
    exact assocGet_isSome_of_mem r _ hrdb
  simp only [deleteNode]
  rw [deleteRows_ok _ db.canvasEdges hnd hpre, dbDelete_ok hx]
  rfl

/-- C5 (amended): on a state with distinct edge row ids where node X exists
and no edge is a self-loop on X, deleteNode succeeds, removes the node and
exactly the edges having it as source or target (no unrelated edge and no
other node is removed), and a subsequent getBacklinks of any node no longer
lists the deleted node.  On a state with a self-loop edge on X the mutation
throws instead and deletes nothing — see the counterexample. -/
theorem deleteNode_cascade (db : Db) (X : Nat)
    (hk : (db.canvasEdges.map Prod.fst).Nodup)
    (hx : (getNodeById db X).isSome = true)
    (hs : ∀ e ∈ db.canvasEdges, ¬(e.2.source = X ∧ e.2.target = X)) :
    ∃ db2, deleteNode db X = Except.ok db2 ∧
      getNodeById db2 X = none ∧
      (∀ other, other ≠ X → getNodeById db2 other = getNodeById db other) ∧
      (∀ e, e ∈ db2.canvasEdges ↔
        e ∈ db.canvasEdges ∧ e.2.source ≠ X ∧ e.2.target ≠ X) ∧
      (∀ Y, ∀ o ∈ getBacklinks db2 Y, ∀ b ∈ o, b.id ≠ X) := by
  have hnodes : (cascadeResult db X).canvasNodes =
    assocErase X db.canvasNodes := rfl
  refine ⟨cascadeResult db X, deleteNode_ok db X hk hx hs, ?_, ?_,
    cascadeResult_edges_char db X hk, ?_⟩
  · show assocGet X (cascadeResult db X).canvasNodes = none
    rw [hnodes]
    exact assocGet_assocErase_self X db.canvasNodes
  · intro other hne
    show assocGet other (cascadeResult db X).canvasNodes = _
    rw [hnodes]
    exact assocGet_assocErase_ne other X hne db.canvasNodes
  · intro Y o ho b hb
    rw [getBacklinks] at ho
    have ho1 := (List.mem_filter.mp ho).1
    obtain ⟨e, he, rfl⟩ := List.mem_map.mp ho1
    rw [Option.mem_def, Option.map_eq_some'] at hb
    obtain ⟨n, _, hgb⟩ := hb
    have hedb : e ∈ (cascadeResult db X).canvasEdges := (List.mem_filter.mp he).1
    have hsrc := ((cascadeResult_edges_char db X hk e).mp hedb).2.1
    rw [← hgb]
    exact hsrc

/-- A second node, target of the concrete edge. -/
def exNodeTarget : CanvasNodeDoc :=
  { type := "text", content := "target", x := 4, y := 4, width := 300,
    height := 150, createdAt := 6, updatedAt := 6 }

/-- A database with two nodes and one edge between them, plus an unrelated
edge between two further nodes. -/
def exEdgeMain : EdgeDoc :=
  { source := 7, target := 8, label := some "92%", createdAt := 6 }

def exEdgeOther : EdgeDoc :=
  { source := 8, target := 8, label := none, createdAt := 7 }

def exDbEdges : Db :=
  { canvasNodes := [(7, exNode), (8, exNodeTarget)],
    canvasEdges := [(20, exEdgeMain), (21, exEdgeOther)],
    nextId := 22 }

/-- Counterexample to C5 as stated (for every node X): node 8 of the
concrete database exists and carries the self-loop edge row 21; that row is
collected by both the by_source and the by_target query, its second
ctx.db.delete throws, and the atomic mutation rolls back — deleteNode(8)
yields an error and no post-state, so neither node 8 nor the edge into it is
deleted. -/
theorem deleteNode_selfLoop_counterexample :
    getNodeById exDbEdges 8 = some exNodeTarget ∧
    (21, exEdgeOther) ∈ exDbEdges.canvasEdges ∧
    exEdgeOther.source = 8 ∧ exEdgeOther.target = 8 ∧
    deleteNode exDbEdges 8 = Except.error "Delete on nonexistent document" ∧
    (∀ db2, deleteNode exDbEdges 8 ≠ Except.ok db2) := by
  refine ⟨rfl, by simp [exDbEdges], rfl, rfl, rfl, ?_⟩
  intro db2 h
  rw [show deleteNode exDbEdges 8 =
    Except.error "Delete on nonexistent document" from rfl] at h
  exact Except.noConfusion h

/-- Witness for C5: deleting node 7 of the concrete database, which exists
and has no self-loop. -/
theorem deleteNode_cascade_witness :
    ((exDbEdges.canvasEdges.map Prod.fst).Nodup ∧
      (getNodeById exDbEdges 7).isSome = true ∧
      (∀ e ∈ exDbEdges.canvasEdges, ¬(e.2.source = 7 ∧ e.2.target = 7))) ∧
    (∃ db2, deleteNode exDbEdges 7 = Except.ok db2 ∧
      getNodeById db2 7 = none ∧
      (∀ other, other ≠ 7 → getNodeById db2 other = getNodeById exDbEdges other) ∧
      (∀ e, e ∈ db2.canvasEdges ↔
        e ∈ exDbEdges.canvasEdges ∧ e.2.source ≠ 7 ∧ e.2.target ≠ 7) ∧
      (∀ Y, ∀ o ∈ getBacklinks db2 Y, ∀ b ∈ o, b.id ≠ 7)) :=
  ⟨⟨by simp [exDbEdges], rfl, by simp [exDbEdges, exEdgeMain, exEdgeOther]⟩,
    deleteNode_cascade exDbEdges 7 (by simp [exDbEdges]) rfl
      (by simp [exDbEdges, exEdgeMain, exEdgeOther])⟩

lemma findRelated_ok (db : Db) (ident : String) (resp : ProviderResponse)
    (mi ni : VectorIndex) (limit : Option Nat) (hok : resp.ok = true) :
    findRelated db ident resp mi ni limit = Except.ok
      ({ messages := ((mi resp.embedding (limit.getD 5)).map
          (resolveMessageHit db ident)).filter (fun o => o.isSome),
         nodes := ((ni resp.embedding (limit.getD 5)).map
          (resolveNodeHit db)).filter (fun o => o.isSome) }, db) := by
  rw [findRelated, hok]
  rfl

/-- C3: if each collection's vector index returns its hits in non-increasing
score order, then the messages and nodes arrays of findRelated carry their
entities in non-increasing score order — the per-hit resolution attaches the
hit's own score and the null-dropping filter preserves the hit order. -/
theorem findRelated_score_monotone (db : Db) (ident : String)
    (resp : ProviderResponse) (mi ni : VectorIndex) (limit : Option Nat)
    (hok : resp.ok = true)
    (hm : (mi resp.embedding (limit.getD 5)).Pairwise (fun a b => b.2 ≤ a.2))
    (hn : (ni resp.embedding (limit.getD 5)).Pairwise (fun a b => b.2 ≤ a.2)) :
    ∃ r, findRelated db ident resp mi ni limit = Except.ok (r, db) ∧
      List.Pairwise (fun a b => b ≤ a)
        ((r.messages.filterMap id).map RelatedMessage.score) ∧
      List.Pairwise (fun a b => b ≤ a)
        ((r.nodes.filterMap id).map RelatedNode.score) := by
  refine ⟨_, findRelated_ok db ident resp mi ni limit hok, ?_, ?_⟩
  · dsimp only
    rw [filterMap_id_map_filter, List.pairwise_map]
    refine hm.filterMap (resolveMessageHit db ident) ?_
    intro a a2 hr b hb b2 hb2
    rw [Option.mem_def] at hb hb2
    rw [resolveMessageHit_score db ident a b hb,
      resolveMessageHit_score db ident a2 b2 hb2]
    exact hr
  · dsimp only
    rw [filterMap_id_map_filter, List.pairwise_map]
    refine hn.filterMap (resolveNodeHit db) ?_
    intro a a2 hr b hb b2 hb2
    rw [Option.mem_def] at hb hb2
    rw [resolveNodeHit_score db a b hb, resolveNodeHit_score db a2 b2 hb2]
    exact hr

/-- A successful provider response carrying a query vector. -/
def exOkResp : ProviderResponse :=
  { ok := true, errorMessage := none, embedding := [1, 0] }

/-- A message index returning two hits in non-increasing score order. -/
def exMsgIndex2 : VectorIndex := fun _ _ => [(1, (9 : Rat)/10), (1, (1 : Rat)/2)]

/-- A node index returning one hit on the concrete node. -/
def exNodeIndex2 : VectorIndex := fun _ _ => [(7, (3 : Rat)/4)]

/-- Witness for C3 at a concrete sorted pair of hit lists. -/
theorem findRelated_score_monotone_witness :
    (exOkResp.ok = true ∧
      (exMsgIndex2 exOkResp.embedding ((none : Option Nat).getD 5)).Pairwise
        (fun a b => b.2 ≤ a.2) ∧
      (exNodeIndex2 exOkResp.embedding ((none : Option Nat).getD 5)).Pairwise
        (fun a b => b.2 ≤ a.2)) ∧
    (∃ r, findRelated exDbA "userA" exOkResp exMsgIndex2 exNodeIndex2 none =
        Except.ok (r, exDbA) ∧
      List.Pairwise (fun a b => b ≤ a)
        ((r.messages.filterMap id).map RelatedMessage.score) ∧
      List.Pairwise (fun a b => b ≤ a)
        ((r.nodes.filterMap id).map RelatedNode.score)) :=
  ⟨⟨rfl, by norm_num [exMsgIndex2, exOkResp, List.pairwise_cons],
      by norm_num [exNodeIndex2, exOkResp, List.pairwise_cons]⟩,
    findRelated_score_monotone exDbA "userA" exOkResp exMsgIndex2 exNodeIndex2
      none rfl
      (by norm_num [exMsgIndex2, exOkResp, List.pairwise_cons])
      (by norm_num [exNodeIndex2, exOkResp, List.pairwise_cons])⟩

/-- C8: each collection is queried with top-k equal to the given limit (5
when the limit argument is omitted), so whenever the vector index honours
its top-k bound, each returned array has length at most the limit; hits
whose authorization-checked lookup returns null are dropped by the filter
rather than raising an error, which can only shorten the arrays further. -/
theorem findRelated_limit_bound (db : Db) (ident : String)
    (resp : ProviderResponse) (mi ni : VectorIndex) (limit : Option Nat)
    (hok : resp.ok = true)
    (hm : (mi resp.embedding (limit.getD 5)).length ≤ limit.getD 5)
    (hn : (ni resp.embedding (limit.getD 5)).length ≤ limit.getD 5) :
    ∃ r, findRelated db ident resp mi ni limit = Except.ok (r, db) ∧
      r.messages.length ≤ limit.getD 5 ∧ r.nodes.length ≤ limit.getD 5 := by
  refine ⟨_, findRelated_ok db ident resp mi ni limit hok, ?_, ?_⟩
  · dsimp only
    refine le_trans (le_trans (List.length_filter_le _ _) ?_) hm
    simp
  · dsimp only
    refine le_trans (le_trans (List.length_filter_le _ _) ?_) hn
    simp

/-- A node index whose single hit resolves to nothing (no node 99 exists in
the concrete database), exercising the silent dropping of hits. -/
def exNodeIndexMiss : VectorIndex := fun _ _ => [(99, (1 : Rat)/2)]

/-- Witness for C8 with the limit argument omitted (top-k defaults to 5) and
a hit whose lookup returns null. -/
theorem findRelated_limit_bound_witness :
    (exOkResp.ok = true ∧
      (exMsgIndex2 exOkResp.embedding ((none : Option Nat).getD 5)).length ≤
        (none : Option Nat).getD 5 ∧
      (exNodeIndexMiss exOkResp.embedding ((none : Option Nat).getD 5)).length ≤
        (none : Option Nat).getD 5) ∧
    (∃ r, findRelated exDbA "userA" exOkResp exMsgIndex2 exNodeIndexMiss none =
        Except.ok (r, exDbA) ∧
      r.messages.length ≤ (none : Option Nat).getD 5 ∧
      r.nodes.length ≤ (none : Option Nat).getD 5) :=
  ⟨⟨rfl, by norm_num [exMsgIndex2, exOkResp], by norm_num [exNodeIndexMiss, exOkResp]⟩,
    findRelated_limit_bound exDbA "userA" exOkResp exMsgIndex2 exNodeIndexMiss
      none rfl (by norm_num [exMsgIndex2, exOkResp])
      (by norm_num [exNodeIndexMiss, exOkResp])⟩

/- ---------------------------------------------------------------------- -/
/- Owner isolation (C1)                                                    -/
/- ---------------------------------------------------------------------- -/

/-- A conversation owned by userB. -/
def exConvB : ConversationDoc := { userId := "userB", updatedAt := 0 }

/-- A message of userB, inside userB's conversation. -/
def exMsgB : MessageDoc :=
  { conversationId := 3, role := "user", content := "B secret", createdAt := 1 }

/-- A canvas node created by userB.  The canvasNodes schema carries no owner
field at all, so the node's provenance is not recorded anywhere the read
paths could check. -/
def exNodeB : CanvasNodeDoc :=
  { type := "note", content := "B note", x := 0, y := 0, width := 300,
    height := 150, createdAt := 2, updatedAt := 2 }

/-- The edge from userB's node 10 to node 11. -/
def exEdgeB : EdgeDoc :=
  { source := 10, target := 11, label := none, createdAt := 3 }

/-- userB's database: conversation 3, message 4, node 10, and an edge from
node 10 to node 11. -/
def exDbB : Db :=
  { conversations := [(3, exConvB)], messages := [(4, exMsgB)],
    canvasNodes := [(10, exNodeB)],
    canvasEdges := [(20, exEdgeB)],
    nextId := 21 }

/-- A message index whose nearest hit is userB's message. -/
def exMsgIndexB : VectorIndex := fun _ _ => [(4, (9 : Rat)/10)]

/-- A node index whose nearest hit is userB's node. -/
def exNodeIndexB : VectorIndex := fun _ _ => [(10, (9 : Rat)/10)]

/-- The related-node entry of userB's node 10 as findRelated returns it. -/
def exLeakNode : RelatedNode :=
  { id := 10, content := "B note", score := (9 : Rat)/10, x := 0, y := 0,
    createdAt := 2 }

/-- The findRelated result leaking userB's node to userA. -/
def exLeakResult : FindRelatedResult :=
  { messages := [], nodes := [some exLeakNode] }

/-- The backlink entry exposing userB's node 10. -/
def exLeakBacklink : BacklinkEntry :=
  { id := 10, node := exNodeB, edgeLabel := none }

/-- C1 (violated by the code): a findRelated call issued as userA against
userB's data drops userB's message (messages.getById checks the conversation
owner) but returns userB's node in the nodes array, because canvas.getNodeById
is a raw ctx.db.get with no ownership check — contrary to the source comment
claiming an auth-checked query; and getBacklinks consults no identity at all
and hands any caller the source node of an incoming edge. -/
theorem findRelated_crossOwner_leak :
    exConvB.userId = "userB" ∧ ("userA" : String) ≠ "userB" ∧
    messagesGetById exDbB "userA" 4 = none ∧
    findRelated exDbB "userA" exOkResp exMsgIndexB exNodeIndexB none =
      Except.ok (exLeakResult, exDbB) ∧
    getBacklinks exDbB 11 = [some exLeakBacklink] := by
  refine ⟨rfl, by decide, rfl, ?_, rfl⟩
  rfl

end Memex
